import Mathlib

/-!
Verification development for the WRC results-API helper library.

The Python source (`Helper.py`) is shallowly embedded below: JSON record
dictionaries become Lean structures, Python `None` becomes `Option.none`,
numeric JSON values become `Rat` (all arithmetic in the source is exact
division by 1000), and raised exceptions become `Except` errors.  Each
embedded function mirrors, loop for loop, the corresponding method of the
`Helper` class.
-/

namespace WRC

/-- Python exceptions that the helper code can raise. -/
inductive PyErr where
  | keyError
  | indexError
  deriving DecidableEq, Repr

/-- Truthiness of an optional rational, as Python evaluates
`if x:` for a value that is either a number or `None`:
`None` and `0` are falsy, every other number is truthy. -/
def truthyOpt (x : Option Rat) : Bool :=
  match x with
  | none => false
  | some v => decide (v ≠ 0)

/-- One per-(entry, stage) record as returned by the stage-times /
stage-result endpoints: `entryId`, `stageId`, an elapsed duration in
milliseconds that may be `null`, and a position that may be `null`. -/
structure TimeRec where
  entryId : Nat
  stageId : Nat
  elapsedDurationMs : Option Rat
  position : Option Rat
  deriving DecidableEq, Repr

/-- One wide-format output row: the `entryId` column plus an
insertion-ordered dictionary from stage identifier to cell value
(a cell holds a number or `null`, exactly like a Python dict value). -/
structure Row where
  entryId : Nat
  cells : List (Nat × Option Rat)
  deriving DecidableEq, Repr

/-- Assignment `d[k] = v` on an insertion-ordered dictionary represented
as an association list: an existing key keeps its position and gets the
new value, a fresh key is appended at the end. -/
def dictSet (d : List (Nat × Option Rat)) (k : Nat) (v : Option Rat) :
    List (Nat × Option Rat) :=
  match d with
  | [] => [(k, v)]
  | (k0, v0) :: rest =>
      if k0 = k then (k, v) :: rest else (k0, v0) :: dictSet rest k v

/-- Lookup `d[k]` on the association-list dictionary: `some cell` when the
key is present, `none` when absent. -/
def dictGet (d : List (Nat × Option Rat)) (k : Nat) : Option (Option Rat) :=
  (d.find? (fun p => decide (p.fst = k))).map (fun p => p.snd)

/-- The `entries` accumulation loop shared verbatim by the three wide-pivot
methods: collect entry identifiers, skipping ones already collected. -/
def collectEntryIds (l : List TimeRec) : List Nat :=
  l.foldl (fun acc r => if r.entryId ∈ acc then acc else acc ++ [r.entryId]) []

/-- Embeds `Helper.getMultiStageTimesWide`: one row per first-encountered
entry identifier; for each record of that entry, column `stageId` holds
`elapsedDurationMs / 1000` when the duration is truthy and `0` otherwise. -/
def getMultiStageTimesWide (multiStageTimes : List TimeRec) : List Row :=
  (collectEntryIds multiStageTimes).map (fun entry =>
    { entryId := entry
      cells := multiStageTimes.foldl (fun cells r =>
        if r.entryId = entry then
          if truthyOpt r.elapsedDurationMs then
            dictSet cells r.stageId (some (r.elapsedDurationMs.getD 0 / 1000))
          else
            dictSet cells r.stageId (some 0)
        else cells) [] })

/-- Embeds `Helper.getMultiStagePositionsWide`: one row per
first-encountered entry identifier; column `stageId` holds the raw
`position` value of the record. -/
def getMultiStagePositionsWide (multiStagePositions : List TimeRec) : List Row :=
  (collectEntryIds multiStagePositions).map (fun entry =>
    { entryId := entry
      cells := multiStagePositions.foldl (fun cells r =>
        if r.entryId = entry then
          dictSet cells r.stageId r.position
        else cells) [] })

/-- The two record fields `Helper.getMultiStageGenericWide` is invoked
with (`stage[stageKey]` dynamic access). -/
inductive StageKey where
  | elapsedDurationMs
  | position
  deriving DecidableEq, Repr

/-- Dynamic field access `stage[stageKey]` for the two keys in use. -/
def recField (r : TimeRec) (stageKey : StageKey) : Option Rat :=
  match stageKey with
  | StageKey.elapsedDurationMs => r.elapsedDurationMs
  | StageKey.position => r.position

/-- Embeds `Helper.getMultiStageGenericWide`: the parameterized pivot; for
`stageKey = elapsedDurationMs` it applies the truthiness-guarded division
by 1000, otherwise it stores the raw selected field. -/
def getMultiStageGenericWide (multiStageTimes : List TimeRec)
    (stageKey : StageKey) : List Row :=
  (collectEntryIds multiStageTimes).map (fun entry =>
    { entryId := entry
      cells := multiStageTimes.foldl (fun cells r =>
        if r.entryId = entry then
          if stageKey = StageKey.elapsedDurationMs then
            if truthyOpt (recField r stageKey) then
              dictSet cells r.stageId (some (r.elapsedDurationMs.getD 0 / 1000))
            else
              dictSet cells r.stageId (some 0)
          else
            dictSet cells r.stageId (recField r stageKey)
        else cells) [] })

/-- Written from the spec wording, not from the code: the list of distinct
values in first-occurrence order ("row order follows first-encountered
entry order in the input list"). -/
def distinctFirstOccur : List Nat → List Nat
  | [] => []
  | x :: xs => x :: (distinctFirstOccur xs).filter (fun y => decide (y ≠ x))

/-- Written from the spec wording: the cell value for a stage-time record
is its elapsed duration converted from milliseconds to seconds, with a
`null` duration substituted by zero. -/
def specTimeCell (r : TimeRec) : Option Rat :=
  some (r.elapsedDurationMs.getD 0 / 1000)

/-- The concrete input list of the spec's wide-pivot example. -/
def exStageTimes : List TimeRec :=
  [⟨1, 10, some 65000, none⟩, ⟨1, 11, none, none⟩, ⟨2, 10, some 70000, none⟩]

/-- The output rows the spec's wide-pivot example promises. -/
def exWideExpected : List Row :=
  [⟨1, [(10, some 65), (11, some 0)]⟩, ⟨2, [(10, some 70)]⟩]

/-- Python `str.lower()` on a string modelled as a character list. -/
def strLower (s : List Char) : List Char :=
  s.map Char.toLower

/-- Python substring containment `needle in hay`: some contiguous run of
`hay` equals `needle` (the empty needle is contained in everything). -/
def inStr : List Char → List Char → Bool
  | n, [] => n.isEmpty
  | n, c :: t => n.isPrefixOf (c :: t) || inStr n t

/-- One calendar event: identifier and display name. -/
structure Event where
  id : Nat
  name : List Char
  deriving DecidableEq, Repr

/-- Embeds `Helper.getEventIdFromName`: filter the season by
case-insensitive substring match of the query against event names, return
the first matching identifier, `None` when the match set is empty. -/
def getEventIdFromName (season : List Event) (eventName : List Char) : Option Nat :=
  ((season.filter (fun event =>
    inStr (strLower eventName) (strLower event.name))).map (fun event => event.id)).head?

/-- One itinerary stage record: identifier, code, display name, distance. -/
structure StageR where
  stageId : Nat
  code : List Char
  name : List Char
  distance : Rat
  deriving DecidableEq, Repr

/-- The two lookup modes `Helper.getStageId` is invoked with (`typ` is the
dictionary key used for the comparison). -/
inductive StageTyp where
  | code
  | name
  deriving DecidableEq, Repr

/-- Embeds `Helper.getStageId`: exact match on the stage code when
`typ = code`, case-insensitive substring match on the stage name
otherwise; first match wins, `None` on an empty match set. -/
def getStageId (stages : List StageR) (sname : List Char) (typ : StageTyp) : Option Nat :=
  if typ = StageTyp.code then
    ((stages.filter (fun s => decide (s.code = sname))).map (fun s => s.stageId)).head?
  else
    ((stages.filter (fun s =>
      inStr (strLower sname) (strLower s.name))).map (fun s => s.stageId)).head?

/-- A nested sub-record carrying only a (possibly missing) `name` key. -/
structure NamedRec where
  name : Option (List Char)
  deriving DecidableEq, Repr

/-- A driver or co-driver sub-record; every key may be missing. -/
structure Person where
  abbvName : Option (List Char)
  fullName : Option (List Char)
  personCode : Option (List Char)
  deriving DecidableEq, Repr

/-- A raw entry dictionary as fetched from the cars endpoint; each key the
projection reads may be missing (`none` models an absent key, whose lookup
raises in Python). -/
structure RawEntry where
  entryId : Option Nat
  driverId : Option Nat
  codriverId : Option Nat
  manufacturerId : Option Nat
  vehicleModel : Option (List Char)
  eligibility : Option (List Char)
  eventClasses : Option (List NamedRec)
  manufacturer : Option NamedRec
  entrant : Option NamedRec
  group : Option NamedRec
  driver : Option Person
  codriver : Option Person
  deriving DecidableEq, Repr

/-- The projected record `Helper.getCarDataFromEntry` builds: the six core
keys plus the denormalized display fields. -/
structure CarData where
  entryId : Nat
  driverId : Nat
  codriverId : Nat
  manufacturerId : Nat
  vehicleModel : List Char
  eligibility : List Char
  classname : List Char
  manufacturer : List Char
  entrantname : List Char
  groupname : List Char
  drivername : List Char
  driverfullname : List Char
  codrivername : List Char
  codriverfullname : List Char
  carCode : List Char
  deriving DecidableEq, Repr

/-- Embeds `Helper.getCarDataFromEntry`: every dictionary access fails
(propagating the Python key/index error, modelled as `none`) when the key
is absent; on success the fully projected record is returned. -/
def getCarDataFromEntry (entry : RawEntry) : Option CarData :=
  match entry.entryId, entry.driverId, entry.codriverId, entry.manufacturerId,
      entry.vehicleModel, entry.eligibility, entry.eventClasses, entry.manufacturer,
      entry.entrant, entry.group, entry.driver, entry.codriver with
  | some entryId, some driverId, some codriverId, some manufacturerId,
    some vehicleModel, some eligibility, some eventClasses, some manufacturerRec,
    some entrantRec, some groupRec, some driverRec, some codriverRec =>
      match eventClasses.head? with
      | some eventClass0 =>
          match eventClass0.name, manufacturerRec.name, entrantRec.name, groupRec.name,
              driverRec.abbvName, driverRec.fullName, driverRec.personCode,
              codriverRec.abbvName, codriverRec.fullName with
          | some classname, some manufacturername, some entrantname, some groupname,
            some drivername, some driverfullname, some carCode,
            some codrivername, some codriverfullname =>
              Option.some
                (CarData.mk entryId driverId codriverId manufacturerId vehicleModel
                  eligibility classname manufacturername entrantname groupname
                  drivername driverfullname codrivername codriverfullname carCode)
          | _, _, _, _, _, _, _, _, _ => none
      | none => none
  | _, _, _, _, _, _, _, _, _, _, _, _ => none

/-- Spec-side accessor: the class name field path `eventClasses[0].name`. -/
def classNameOf (entry : RawEntry) : Option (List Char) :=
  entry.eventClasses.bind (fun l => l.head?.bind (fun ec => ec.name))

/-- Spec-side accessor: the `name` key of a nested sub-record. -/
def nestedNameOf (sub : Option NamedRec) : Option (List Char) :=
  sub.bind (fun r => r.name)

/-- One time-control checkpoint inside an itinerary section. -/
structure ControlItem where
  controlId : Nat
  deriving DecidableEq, Repr

/-- One competitive stage inside an itinerary section. -/
structure StageItem where
  stageId : Nat
  deriving DecidableEq, Repr

/-- One itinerary section: its identifier, its owning leg's identifier and
its nested control and stage lists. -/
structure ItinerarySection where
  itinerarySectionId : Nat
  itineraryLegId : Nat
  controls : List ControlItem
  stages : List StageItem
  deriving DecidableEq, Repr

/-- One itinerary leg: its identifier, its start list and its sections. -/
structure ItineraryLeg where
  itineraryLegId : Nat
  startListId : Nat
  itinerarySections : List ItinerarySection
  deriving DecidableEq, Repr

/-- A flattened control annotated with its owning section's identifier
(the key `Helper.getControls` injects into each control dictionary). -/
structure AnnControl where
  control : ControlItem
  itinerarySectionId : Nat
  deriving DecidableEq, Repr

/-- A flattened stage annotated with its owning section's identifier
(the key `Helper.getStages` injects into each stage dictionary). -/
structure AnnStage where
  stage : StageItem
  itinerarySectionId : Nat
  deriving DecidableEq, Repr

/-- Embeds `Helper.getSections`: the per-leg lists of sections. -/
def getSections (itinerary : List ItineraryLeg) : List (List ItinerarySection) :=
  itinerary.map (fun leg => leg.itinerarySections)

/-- Embeds `Helper.getControls`: the triple nested loop appending every
control of every section, tagged with the section identifier. -/
def getControls (sections : List (List ItinerarySection)) : List AnnControl :=
  (sections.map (fun sectionList =>
    (sectionList.map (fun c =>
      c.controls.map (fun control => AnnControl.mk control c.itinerarySectionId))).flatten)).flatten

/-- Embeds `Helper.getStages`: the triple nested loop appending every
stage of every section, tagged with the section identifier. -/
def getStages (sections : List (List ItinerarySection)) : List AnnStage :=
  (sections.map (fun sectionList =>
    (sectionList.map (fun s =>
      s.stages.map (fun stage => AnnStage.mk stage s.itinerarySectionId))).flatten)).flatten

/-- Embeds `Helper.getStartListId`: scan every section for the requested
section identifier remembering the owning leg identifier of the last
match, treat a falsy result (`None` or `0`, Python `if not itineraryLegId`)
as not found, then return the `startListId` of the first leg with that
identifier. -/
def getStartListId (itinerary : List ItineraryLeg) (itinerarySectionId : Nat) : Option Nat :=
  let sections := getSections itinerary
  let legId := sections.foldl (fun acc sectionList =>
    sectionList.foldl (fun acc2 s =>
      if s.itinerarySectionId = itinerarySectionId then some s.itineraryLegId
      else acc2) acc) none
  match legId with
  | none => none
  | some l =>
      if l = 0 then none
      else (itinerary.find? (fun item => decide (item.itineraryLegId = l))).map
        (fun item => item.startListId)

/-- The input on which `getStartListId` contradicts its contract: the
section with identifier 1 exists and its owning leg (identifier 0) has
start list 7, but the falsy-zero guard reports not-found. -/
def c4FailItinerary : List ItineraryLeg :=
  [{ itineraryLegId := 0, startListId := 7
     itinerarySections :=
       [{ itinerarySectionId := 1, itineraryLegId := 0, controls := [], stages := [] }] }]

/-- One overall-classification record; `stageId` is the key that
`Helper.getOverallResult` overwrites with the stage it fetched. -/
structure OverallRec where
  entryId : Nat
  stageId : Nat
  deriving DecidableEq, Repr

/-- Evaluates the per-stage list comprehension of the multi-stage
aggregates: fetch each stage left to right, propagating the first
failure. -/
def mapFetch {α : Type} (fetch : Nat → Except PyErr (List α)) :
    List Nat → Except PyErr (List (List α))
  | [] => Except.ok []
  | s :: rest => do
      let r ← fetch s
      let rs ← mapFetch fetch rest
      Except.ok (r :: rs)

/-- Tests whether an `Except` computation succeeded. -/
def isOkE {α : Type} (x : Except PyErr α) : Bool :=
  match x with
  | Except.ok _ => true
  | Except.error _ => false

/-- Embeds `Helper.getOverallResult`; the HTTP GET is abstracted as the
explicit `fetchOverall` argument (transport failure is an `Except` error).
Every fetched record gets its `stageId` key overwritten with the stage the
result was fetched for. -/
def getOverallResult (fetchOverall : Nat → Nat → Except PyErr (List OverallRec))
    (eventId stageId : Nat) : Except PyErr (List OverallRec) := do
  let overall ← fetchOverall eventId stageId
  Except.ok (overall.map (fun pos => { pos with stageId := stageId }))

/-- Embeds `Helper.getMultipleOverall`: fetch each stage's annotated
overall result, then append every record in order. -/
def getMultipleOverall (fetchOverall : Nat → Nat → Except PyErr (List OverallRec))
    (eventId : Nat) (stageList : List Nat) : Except PyErr (List OverallRec) := do
  let resultList ← mapFetch (fun stage => getOverallResult fetchOverall eventId stage) stageList
  Except.ok (resultList.foldl (fun final res => final ++ res) [])

/-- Embeds `Helper.getMultipleStageTimes`: fetch each stage's times (the
HTTP GET of `getStageTimes` abstracted as `fetchStageTimes`), then append
every record in order. -/
def getMultipleStageTimes (fetchStageTimes : Nat → Nat → Except PyErr (List TimeRec))
    (eventId : Nat) (stageList : List Nat) : Except PyErr (List TimeRec) := do
  let resultList ← mapFetch (fun stage => fetchStageTimes eventId stage) stageList
  Except.ok (resultList.foldl (fun final res => final ++ res) [])

/-- One well-formed entry record as used by `Helper.getEntryById` (the
cars endpoint always provides `entryId`; the driver identifier stands for
the rest of the payload). -/
structure CarEntry where
  entryId : Nat
  driverId : Nat
  deriving DecidableEq, Repr

/-- Embeds `Helper.getEntryById`: `next((e for e in entries if
e.entryId == entryId), None)`. -/
def getEntryById (entries : List CarEntry) (entryId : Nat) : Option CarEntry :=
  entries.find? (fun e => decide (e.entryId = entryId))

/-- A dynamically accessed stage-dictionary value. -/
inductive SVal where
  | vnat (n : Nat)
  | vstr (s : List Char)
  | vrat (q : Rat)
  deriving DecidableEq, Repr

/-- Dynamic key access `s[typ]` on a stage dictionary; an unknown key is
absent (`none`), which Python surfaces as a `KeyError`. -/
def stageField (s : StageR) (typ : String) : Option SVal :=
  if typ = "stageId" then some (SVal.vnat s.stageId)
  else if typ = "code" then some (SVal.vstr s.code)
  else if typ = "name" then some (SVal.vstr s.name)
  else if typ = "distance" then some (SVal.vrat s.distance)
  else none

/-- Evaluates the comprehension `[s for s in stages if s[typ] == sid]`,
raising `KeyError` when a record lacks the key. -/
def filterByKey : List StageR → String → SVal → Except PyErr (List StageR)
  | [], _, _ => Except.ok []
  | s :: rest, typ, sid =>
      match stageField s typ with
      | none => Except.error PyErr.keyError
      | some v => do
          let tail ← filterByKey rest typ sid
          Except.ok (if v = sid then s :: tail else tail)

/-- The `" (Live TV)"` suffix the stage-name cleaning removes. -/
def liveTVTag : List Char :=
  " (Live TV)".data

/-- Python `name.replace(" (Live TV)", "")`: delete every occurrence of
the tag, scanning left to right. -/
def replaceLiveTV : List Char → List Char
  | [] => []
  | c :: cs =>
      if liveTVTag.isPrefixOf (c :: cs) then
        replaceLiveTV (List.drop liveTVTag.length (c :: cs))
      else
        c :: replaceLiveTV cs
  termination_by l => l.length
  decreasing_by
    all_goals simp [List.length_drop]
    all_goals have h : liveTVTag.length = 10 := rfl
    all_goals omega

/-- The name/distance dictionary `Helper.getStageInfo` returns. -/
structure StageInfoOut where
  name : List Char
  distance : Rat
  deriving DecidableEq, Repr

/-- Embeds `Helper.getStageInfo`: filter the stages by the selected key,
return `None` behind a dead guard (`len(stage) < 0`), then index the first
match — raising `IndexError` on an empty match set. -/
def getStageInfo (stages : List StageR) (sid : SVal) (typ : String) (clean : Bool) :
    Except PyErr (Option StageInfoOut) :=
  match filterByKey stages typ sid with
  | Except.error e => Except.error e
  | Except.ok stage =>
      if stage.length < 0 then Except.ok none
      else
        match stage with
        | [] => Except.error PyErr.indexError
        | st :: _ =>
            if clean then Except.ok (some { name := replaceLiveTV st.name, distance := st.distance })
            else Except.ok (some { name := st.name, distance := st.distance })

/-- A fully populated raw entry, used to exercise the success path of the
projection. -/
def exRawEntry : RawEntry :=
  { entryId := some 21, driverId := some 31, codriverId := some 41
    manufacturerId := some 51, vehicleModel := some "Yaris".data
    eligibility := some "M".data
    eventClasses := some [{ name := some "RC1".data }]
    manufacturer := some { name := some "Toyota".data }
    entrant := some { name := some "TGR".data }
    group := some { name := some "Rally1".data }
    driver := some { abbvName := some "S. Ogier".data, fullName := some "Sebastien Ogier".data
                     personCode := some "OGI".data }
    codriver := some { abbvName := some "V. Landais".data, fullName := some "Vincent Landais".data
                       personCode := some "LAN".data } }

/-- The projection of `exRawEntry` that `getCarDataFromEntry` returns. -/
def exCarData : CarData :=
  { entryId := 21, driverId := 31, codriverId := 41, manufacturerId := 51
    vehicleModel := "Yaris".data, eligibility := "M".data
    classname := "RC1".data, manufacturer := "Toyota".data
    entrantname := "TGR".data, groupname := "Rally1".data
    drivername := "S. Ogier".data, driverfullname := "Sebastien Ogier".data
    codrivername := "V. Landais".data, codriverfullname := "Vincent Landais".data
    carCode := "OGI".data }

/-!  Helper lemmas shared by the claim theorems. -/

theorem head?_filter_map {α β : Type} (p : α → Bool) (f : α → β) (l : List α) :
    ((l.filter p).map f).head? = (l.find? p).map f := by
  induction l with
  | nil => rfl
  | cons a t ih =>
      by_cases h : p a <;> simp [List.filter_cons, List.find?_cons, h, ih]

theorem dictGet_cons (k0 : Nat) (v0 : Option Rat) (rest : List (Nat × Option Rat)) (k : Nat) :
    dictGet ((k0, v0) :: rest) k = if k0 = k then some v0 else dictGet rest k := by
  by_cases h : k0 = k <;> simp [dictGet, List.find?_cons, h]

theorem dictGet_dictSet_self (d : List (Nat × Option Rat)) (k : Nat) (v : Option Rat) :
    dictGet (dictSet d k v) k = some v := by
  induction d with
  | nil => simp [dictSet, dictGet_cons]
  | cons p rest ih =>
      obtain ⟨k0, v0⟩ := p
      by_cases h : k0 = k
      · subst h
        simp [dictSet, dictGet_cons]
      · simp [dictSet, h, dictGet_cons, ih]

theorem dictGet_dictSet_ne (d : List (Nat × Option Rat)) (k k2 : Nat) (v : Option Rat)
    (h : k2 ≠ k) : dictGet (dictSet d k v) k2 = dictGet d k2 := by
  have h2k : ¬ (k = k2) := fun hh => h hh.symm
  induction d with
  | nil => simp [dictSet, dictGet_cons, h2k, dictGet]
  | cons p rest ih =>
      obtain ⟨k0, v0⟩ := p
      by_cases h0 : k0 = k
      · subst h0
        simp [dictSet, dictGet_cons, h2k]
      · by_cases hb : k0 = k2 <;> simp [dictSet, h0, dictGet_cons, hb, h, ih]

theorem getLast?_cons_eq {α : Type} (a : α) (l : List α) :
    (a :: l).getLast? = match l.getLast? with
      | none => some a
      | some b => some b := by
  induction l generalizing a with
  | nil => rfl
  | cons b t ih =>
      rw [List.getLast?_cons_cons, ih b]
      cases h : t.getLast? <;> simp

theorem filter_ne_absorb (acc : List Nat) (e : Nat) (he : e ∈ acc) (m : List Nat) :
    (m.filter (fun y => decide (y ≠ e))).filter (fun y => decide (y ∉ acc)) =
      m.filter (fun y => decide (y ∉ acc)) := by
  rw [List.filter_filter]
  apply List.filter_congr
  intro a _
  by_cases h1 : a = e <;> by_cases h2 : a ∈ acc <;> simp_all

theorem filter_notmem_append (acc : List Nat) (e : Nat) (m : List Nat) :
    m.filter (fun y => decide (y ∉ acc ++ [e])) =
      (m.filter (fun y => decide (y ≠ e))).filter (fun y => decide (y ∉ acc)) := by
  rw [List.filter_filter]
  apply List.filter_congr
  intro a _
  by_cases h1 : a = e <;> by_cases h2 : a ∈ acc <;> simp [List.mem_append, h1, h2]

theorem collect_go (l : List TimeRec) : ∀ acc : List Nat,
    l.foldl (fun acc r => if r.entryId ∈ acc then acc else acc ++ [r.entryId]) acc =
      acc ++ (distinctFirstOccur (l.map (fun r => r.entryId))).filter
        (fun y => decide (y ∉ acc)) := by
  induction l with
  | nil => intro acc; simp [distinctFirstOccur]
  | cons r t ih =>
      intro acc
      simp only [List.foldl_cons, List.map_cons, distinctFirstOccur, List.filter_cons]
      by_cases h : r.entryId ∈ acc
      · rw [if_pos h, ih]
        have hd : decide (r.entryId ∉ acc) = false := by simp [h]
        rw [hd]
        simp only [Bool.false_eq_true, if_false]
        rw [filter_ne_absorb acc r.entryId h]
      · rw [if_neg h, ih]
        have hd : decide (r.entryId ∉ acc) = true := by simp [h]
        rw [hd]
        simp only [if_true]
        rw [filter_notmem_append]
        simp [List.append_assoc]

theorem collectEntryIds_eq (l : List TimeRec) :
    collectEntryIds l = distinctFirstOccur (l.map (fun r => r.entryId)) := by
  have h := collect_go l []
  simpa [collectEntryIds] using h

theorem timesCells_go (e sid : Nat) (l : List TimeRec) : ∀ d,
    dictGet (l.foldl (fun cells r =>
        if r.entryId = e then
          if truthyOpt r.elapsedDurationMs then
            dictSet cells r.stageId (some (r.elapsedDurationMs.getD 0 / 1000))
          else
            dictSet cells r.stageId (some 0)
        else cells) d) sid =
      match (l.filter (fun r => decide (r.entryId = e ∧ r.stageId = sid))).getLast? with
      | some r => some (specTimeCell r)
      | none => dictGet d sid := by
  induction l with
  | nil => intro d; rfl
  | cons r t ih =>
      intro d
      simp only [List.foldl_cons, List.filter_cons]
      by_cases h1 : r.entryId = e
      · by_cases h2 : r.stageId = sid
        · have hp : decide (r.entryId = e ∧ r.stageId = sid) = true := by simp [h1, h2]
          rw [hp]
          simp only [if_pos h1, if_true]
          rw [ih]
          cases hlast : (t.filter (fun r => decide (r.entryId = e ∧ r.stageId = sid))).getLast? with
          | some r2 => rw [getLast?_cons_eq, hlast]
          | none =>
              rw [getLast?_cons_eq, hlast]
              by_cases h3 : truthyOpt r.elapsedDurationMs
              · simp only [if_pos h3]
                rw [h2, dictGet_dictSet_self]
                simp [specTimeCell]
              · simp only [if_neg h3]
                rw [h2, dictGet_dictSet_self]
                cases hx : r.elapsedDurationMs with
                | none => simp [specTimeCell, hx]
                | some v =>
                    have hv : v = 0 := by
                      by_contra hv0
                      exact h3 (by simp [truthyOpt, hx, hv0])
                    subst hv
                    simp [specTimeCell, hx]
        · have hp : decide (r.entryId = e ∧ r.stageId = sid) = false := by simp [h2]
          rw [hp]
          simp only [if_pos h1, Bool.false_eq_true, if_false]
          rw [ih]
          have hne : sid ≠ r.stageId := fun hq => h2 hq.symm
          by_cases h3 : truthyOpt r.elapsedDurationMs
          · simp only [if_pos h3]
            rw [dictGet_dictSet_ne _ _ _ _ hne]
          · simp only [if_neg h3]
            rw [dictGet_dictSet_ne _ _ _ _ hne]
      · have hp : decide (r.entryId = e ∧ r.stageId = sid) = false := by simp [h1]
        rw [hp]
        simp only [if_neg h1, Bool.false_eq_true, if_false]
        exact ih d

/-! Claim theorems. -/

/-- C1: `getMultiStageTimesWide` returns one row per distinct entry
identifier in first-occurrence order; each row's dictionary has one
column per stage identifier seen for that entry, holding the elapsed
duration converted from milliseconds to seconds with a `null` duration
mapped to 0 (the value of the last record for that entry/stage pair);
and on the spec's concrete example it returns exactly the promised rows. -/
theorem claim_C1_times_wide_pivot (l : List TimeRec) :
    ((getMultiStageTimesWide l).map (fun row => row.entryId) =
        distinctFirstOccur (l.map (fun r => r.entryId)))
    ∧ (∀ row ∈ getMultiStageTimesWide l, ∀ sid : Nat,
        dictGet row.cells sid =
          ((l.filter (fun r =>
            decide (r.entryId = row.entryId ∧ r.stageId = sid))).getLast?).map specTimeCell)
    ∧ getMultiStageTimesWide exStageTimes = exWideExpected := by
  refine ⟨?_, ?_, ?_⟩
  · simp only [getMultiStageTimesWide, List.map_map, collectEntryIds_eq]
    exact List.map_id _
  · intro row hrow sid
    simp only [getMultiStageTimesWide, List.mem_map] at hrow
    obtain ⟨e, he, hrow⟩ := hrow
    subst hrow
    dsimp only
    rw [timesCells_go]
    cases hlast : (l.filter (fun r => decide (r.entryId = e ∧ r.stageId = sid))).getLast? <;>
      simp [hlast, dictGet]
  · simp [getMultiStageTimesWide, collectEntryIds, exStageTimes, exWideExpected, dictSet,
      truthyOpt, List.foldl]
    norm_num

/-- Witness for C1 at the spec's example: the first output row's cell for
stage 10 is the 65-second conversion of the last (only) matching record. -/
theorem claim_C1_times_wide_pivot_witness :
    dictGet (Row.cells ⟨1, [(10, some 65), (11, some 0)]⟩) 10 =
      ((exStageTimes.filter (fun r =>
        decide (r.entryId = Row.entryId ⟨1, [(10, some 65), (11, some 0)]⟩ ∧
          r.stageId = 10))).getLast?).map specTimeCell := by
  have h := claim_C1_times_wide_pivot exStageTimes
  have hm : (⟨1, [(10, some 65), (11, some 0)]⟩ : Row) ∈ getMultiStageTimesWide exStageTimes := by
    rw [h.2.2]
    simp [exWideExpected]
  exact h.2.1 ⟨1, [(10, some 65), (11, some 0)]⟩ hm 10

/-- C2: the name-based lookups — `getEventIdFromName`, and `getStageId`
with `typ = name` — match by case-insensitive substring containment of
the query in the record's name, return the identifier of the first
matching record, and return `None` (never an error) when no record
matches. -/
theorem claim_C2_name_lookup_first_match :
    (∀ (season : List Event) (eventName : List Char),
        getEventIdFromName season eventName =
          (season.find? (fun event =>
            inStr (strLower eventName) (strLower event.name))).map (fun event => event.id))
    ∧ (∀ (stages : List StageR) (sname : List Char),
        getStageId stages sname StageTyp.name =
          (stages.find? (fun s =>
            inStr (strLower sname) (strLower s.name))).map (fun s => s.stageId))
    ∧ (∀ (season : List Event) (eventName : List Char),
        (∀ event ∈ season, inStr (strLower eventName) (strLower event.name) = false) →
          getEventIdFromName season eventName = none)
    ∧ (∀ (stages : List StageR) (sname : List Char),
        (∀ s ∈ stages, inStr (strLower sname) (strLower s.name) = false) →
          getStageId stages sname StageTyp.name = none) := by
  refine ⟨?_, ?_, ?_, ?_⟩
  · intro season eventName
    simp [getEventIdFromName, head?_filter_map]
  · intro stages sname
    simp [getStageId, head?_filter_map]
  · intro season eventName h
    simp [getEventIdFromName, head?_filter_map, List.find?_eq_none]
    intro ev hev
    simp [h ev hev]
  · intro stages sname h
    simp [getStageId, head?_filter_map, List.find?_eq_none]
    intro s hs
    simp [h s hs]

/-- Witness for C2 at concrete inputs: an empty season and a singleton
stage list with no matching name both yield `None`. -/
theorem claim_C2_name_lookup_first_match_witness :
    getEventIdFromName [] ("monte".data) = none
    ∧ getStageId [⟨7, "SS1".data, "Ouninpohja".data, 33⟩] ("arctic".data) StageTyp.name = none := by
  constructor
  · exact claim_C2_name_lookup_first_match.2.2.1 [] ("monte".data) (by intro ev hev; cases hev)
  · exact claim_C2_name_lookup_first_match.2.2.2
      [⟨7, "SS1".data, "Ouninpohja".data, 33⟩] ("arctic".data) (by decide)

/-- C3: `getCarDataFromEntry` fails (propagates the missing-key error,
i.e. returns `none`) exactly when the entry lacks one of the expected
top-level or nested fields, and on success the returned record projects
precisely those core and denormalized display fields of the entry. -/
theorem claim_C3_car_data_projection (e : RawEntry) :
    (getCarDataFromEntry e = none ↔
      (e.entryId = none ∨ e.driverId = none ∨ e.codriverId = none ∨ e.manufacturerId = none ∨
        e.vehicleModel = none ∨ e.eligibility = none ∨ classNameOf e = none ∨
        nestedNameOf e.manufacturer = none ∨ nestedNameOf e.entrant = none ∨
        nestedNameOf e.group = none ∨
        e.driver.bind (fun p => p.abbvName) = none ∨
        e.driver.bind (fun p => p.fullName) = none ∨
        e.driver.bind (fun p => p.personCode) = none ∨
        e.codriver.bind (fun p => p.abbvName) = none ∨
        e.codriver.bind (fun p => p.fullName) = none))
    ∧ (∀ c : CarData, getCarDataFromEntry e = some c →
        e.entryId = some c.entryId ∧ e.driverId = some c.driverId ∧
        e.codriverId = some c.codriverId ∧ e.manufacturerId = some c.manufacturerId ∧
        e.vehicleModel = some c.vehicleModel ∧ e.eligibility = some c.eligibility ∧
        classNameOf e = some c.classname ∧
        nestedNameOf e.manufacturer = some c.manufacturer ∧
        nestedNameOf e.entrant = some c.entrantname ∧
        nestedNameOf e.group = some c.groupname ∧
        e.driver.bind (fun p => p.abbvName) = some c.drivername ∧
        e.driver.bind (fun p => p.fullName) = some c.driverfullname ∧
        e.driver.bind (fun p => p.personCode) = some c.carCode ∧
        e.codriver.bind (fun p => p.abbvName) = some c.codrivername ∧
        e.codriver.bind (fun p => p.fullName) = some c.codriverfullname) := by
  obtain ⟨f1, f2, f3, f4, f5, f6, f7, f8, f9, f10, f11, f12⟩ := e
  cases f1 with
  | none => simp [getCarDataFromEntry, classNameOf, nestedNameOf]
  | some a1 =>
  cases f2 with
  | none => simp [getCarDataFromEntry, classNameOf, nestedNameOf]
  | some a2 =>
  cases f3 with
  | none => simp [getCarDataFromEntry, classNameOf, nestedNameOf]
  | some a3 =>
  cases f4 with
  | none => simp [getCarDataFromEntry, classNameOf, nestedNameOf]
  | some a4 =>
  cases f5 with
  | none => simp [getCarDataFromEntry, classNameOf, nestedNameOf]
  | some a5 =>
  cases f6 with
  | none => simp [getCarDataFromEntry, classNameOf, nestedNameOf]
  | some a6 =>
  cases f7 with
  | none => simp [getCarDataFromEntry, classNameOf, nestedNameOf]
  | some l7 =>
  cases f8 with
  | none => simp [getCarDataFromEntry, classNameOf, nestedNameOf]
  | some m8 =>
  cases f9 with
  | none => simp [getCarDataFromEntry, classNameOf, nestedNameOf]
  | some m9 =>
  cases f10 with
  | none => simp [getCarDataFromEntry, classNameOf, nestedNameOf]
  | some m10 =>
  cases f11 with
  | none => simp [getCarDataFromEntry, classNameOf, nestedNameOf]
  | some p11 =>
  cases f12 with
  | none => simp [getCarDataFromEntry, classNameOf, nestedNameOf]
  | some p12 =>
  cases l7 with
  | nil => simp [getCarDataFromEntry, classNameOf, nestedNameOf]
  | cons ec0 rest7 =>
  obtain ⟨ec0n⟩ := ec0
  cases ec0n with
  | none => simp [getCarDataFromEntry, classNameOf, nestedNameOf]
  | some nm7 =>
  obtain ⟨m8n⟩ := m8
  cases m8n with
  | none => simp [getCarDataFromEntry, classNameOf, nestedNameOf]
  | some nm8 =>
  obtain ⟨m9n⟩ := m9
  cases m9n with
  | none => simp [getCarDataFromEntry, classNameOf, nestedNameOf]
  | some nm9 =>
  obtain ⟨m10n⟩ := m10
  cases m10n with
  | none => simp [getCarDataFromEntry, classNameOf, nestedNameOf]
  | some nm10 =>
  obtain ⟨p11a, p11f, p11c⟩ := p11
  cases p11a with
  | none => simp [getCarDataFromEntry, classNameOf, nestedNameOf]
  | some na11 =>
  cases p11f with
  | none => simp [getCarDataFromEntry, classNameOf, nestedNameOf]
  | some nf11 =>
  obtain ⟨p12a, p12f, p12c⟩ := p12
  cases p12a with
  | none => simp [getCarDataFromEntry, classNameOf, nestedNameOf]
  | some na12 =>
  cases p12f with
  | none => simp [getCarDataFromEntry, classNameOf, nestedNameOf]
  | some nf12 =>
  cases p11c with
  | none => simp [getCarDataFromEntry, classNameOf, nestedNameOf]
  | some nc11 =>
  simp [getCarDataFromEntry, classNameOf, nestedNameOf]

/-- Witness for C3 at a fully populated entry: the success path projects
the entry identifier and the class name into the returned record. -/
theorem claim_C3_car_data_projection_witness :
    RawEntry.entryId exRawEntry = some (CarData.entryId exCarData)
    ∧ classNameOf exRawEntry = some (CarData.classname exCarData) := by
  have h := (claim_C3_car_data_projection exRawEntry).2 exCarData (by rfl)
  exact ⟨h.1, h.2.2.2.2.2.2.1⟩

/-- C6: `getMultiStageGenericWide` with `stageKey = elapsedDurationMs`
computes exactly `getMultiStageTimesWide`, and with `stageKey = position`
exactly `getMultiStagePositionsWide`: the three wide pivots are instances
of the one parameterized routine. -/
theorem claim_C6_generic_wide_equivalence :
    (∀ l : List TimeRec,
        getMultiStageGenericWide l StageKey.elapsedDurationMs = getMultiStageTimesWide l)
    ∧ (∀ l : List TimeRec,
        getMultiStageGenericWide l StageKey.position = getMultiStagePositionsWide l) :=
  ⟨fun _ => rfl, fun _ => rfl⟩

/-- C4 (code bug): on `c4FailItinerary` the section with identifier 1
exists and its owning leg (leg identifier 0) has start list 7, yet
`getStartListId` returns `None`: the guard `if not itineraryLegId` treats
the legitimate leg identifier 0 as not-found, contradicting the
function's contract that `None` means "no section found". -/
theorem claim_C4_start_list_falsy_zero :
    getStartListId c4FailItinerary 1 = none
    ∧ (∃ leg, leg ∈ c4FailItinerary ∧ ∃ s, s ∈ leg.itinerarySections ∧
        s.itinerarySectionId = 1 ∧ leg.itineraryLegId = s.itineraryLegId ∧
        leg.startListId = 7) := by
  constructor
  · rfl
  · refine ⟨{ itineraryLegId := 0, startListId := 7
              itinerarySections := [⟨1, 0, [], []⟩] }, ?_, ⟨1, 0, [], []⟩, ?_, rfl, rfl, rfl⟩
    · simp [c4FailItinerary]
    · simp

theorem flatten_map_flatten {α β : Type} (F : α → List β) (L : List (List α)) :
    (L.map (fun sl => (sl.map F).flatten)).flatten = ((L.flatten).map F).flatten := by
  induction L with
  | nil => rfl
  | cons x t ih =>
      simp [List.map_cons, List.flatten_cons, List.map_append, List.flatten_append, ih]

theorem filter_flatten_blocks {α : Type} (aid : α → Nat) (blk : ItinerarySection → List α)
    (hblk : ∀ c a, a ∈ blk c → aid a = c.itinerarySectionId) :
    ∀ l : List ItinerarySection, (l.map (fun c => c.itinerarySectionId)).Nodup →
      ∀ sec ∈ l,
        ((l.map blk).flatten).filter (fun a => decide (aid a = sec.itinerarySectionId)) =
          blk sec := by
  intro l
  induction l with
  | nil => intro _ sec hsec; cases hsec
  | cons c rest ih =>
      intro hnd sec hsec
      have hnd0 : (∀ x ∈ rest, ¬ x.itinerarySectionId = c.itinerarySectionId) ∧
          (rest.map (fun c => c.itinerarySectionId)).Nodup := by simpa using hnd
      simp only [List.map_cons, List.flatten_cons, List.filter_append]
      rcases List.mem_cons.mp hsec with hceq | hmem
      · subst hceq
        have hself : (blk sec).filter (fun a => decide (aid a = sec.itinerarySectionId)) =
            blk sec := by
          apply List.filter_eq_self.mpr
          intro a ha
          simp [hblk sec a ha]
        have hrest : ((rest.map blk).flatten).filter
            (fun a => decide (aid a = sec.itinerarySectionId)) = [] := by
          apply List.filter_eq_nil_iff.mpr
          intro a ha
          obtain ⟨bl, hbl, habl⟩ := List.mem_flatten.mp ha
          obtain ⟨c2, hc2, rfl⟩ := List.mem_map.mp hbl
          have haid := hblk c2 a habl
          simp only [haid, decide_eq_true_eq]
          exact hnd0.1 c2 hc2
        rw [hself, hrest]
        simp
      · have hcne : c.itinerarySectionId ≠ sec.itinerarySectionId := by
          intro hEq
          exact hnd0.1 sec hmem hEq.symm
        have hcfil : (blk c).filter (fun a => decide (aid a = sec.itinerarySectionId)) = [] := by
          apply List.filter_eq_nil_iff.mpr
          intro a ha
          simp [hblk c a ha, hcne]
        rw [hcfil, ih hnd0.2 sec hmem]
        simp

/-- C5: with distinct section identifiers, filtering the flattened stage
(resp. control) list of `getStages` (resp. `getControls`) by a section's
injected identifier recovers exactly that section's stages (resp.
controls), in their original order — regrouping the flat output by the
injected identifier reconstructs the original per-section membership. -/
theorem claim_C5_flatten_roundtrip (sections : List (List ItinerarySection))
    (hnd : ((sections.flatten).map (fun c => c.itinerarySectionId)).Nodup) :
    ∀ sec ∈ sections.flatten,
      ((getStages sections).filter
          (fun a => decide (a.itinerarySectionId = sec.itinerarySectionId)) =
        sec.stages.map (fun st => AnnStage.mk st sec.itinerarySectionId))
      ∧ ((getControls sections).filter
          (fun a => decide (a.itinerarySectionId = sec.itinerarySectionId)) =
        sec.controls.map (fun ct => AnnControl.mk ct sec.itinerarySectionId)) := by
  intro sec hsec
  constructor
  · have hs : getStages sections =
        ((sections.flatten).map (fun s =>
          s.stages.map (fun st => AnnStage.mk st s.itinerarySectionId))).flatten := by
      simp [getStages, flatten_map_flatten]
    rw [hs]
    have := filter_flatten_blocks (fun a => a.itinerarySectionId)
      (fun s => s.stages.map (fun st => AnnStage.mk st s.itinerarySectionId))
      (by
        intro c a ha
        obtain ⟨st, hst, rfl⟩ := List.mem_map.mp ha
        rfl)
      sections.flatten hnd sec hsec
    exact this
  · have hc : getControls sections =
        ((sections.flatten).map (fun s =>
          s.controls.map (fun ct => AnnControl.mk ct s.itinerarySectionId))).flatten := by
      simp [getControls, flatten_map_flatten]
    rw [hc]
    have := filter_flatten_blocks (fun a => a.itinerarySectionId)
      (fun s => s.controls.map (fun ct => AnnControl.mk ct s.itinerarySectionId))
      (by
        intro c a ha
        obtain ⟨ct, hct, rfl⟩ := List.mem_map.mp ha
        rfl)
      sections.flatten hnd sec hsec
    exact this

/-- Witness for C5 at a concrete two-leg itinerary with distinct section
identifiers: regrouping recovers section 1's stages and controls. -/
theorem claim_C5_flatten_roundtrip_witness :
    ((getStages [[⟨1, 0, [⟨100⟩], [⟨10⟩, ⟨11⟩]⟩], [⟨2, 0, [⟨101⟩], [⟨12⟩]⟩]]).filter
        (fun a => decide (a.itinerarySectionId = 1)) =
      [⟨⟨10⟩, 1⟩, ⟨⟨11⟩, 1⟩])
    ∧ ((getControls [[⟨1, 0, [⟨100⟩], [⟨10⟩, ⟨11⟩]⟩], [⟨2, 0, [⟨101⟩], [⟨12⟩]⟩]]).filter
        (fun a => decide (a.itinerarySectionId = 1)) =
      [⟨⟨100⟩, 1⟩]) := by
  have h := claim_C5_flatten_roundtrip
    [[⟨1, 0, [⟨100⟩], [⟨10⟩, ⟨11⟩]⟩], [⟨2, 0, [⟨101⟩], [⟨12⟩]⟩]]
    (by decide) ⟨1, 0, [⟨100⟩], [⟨10⟩, ⟨11⟩]⟩ (by decide)
  exact ⟨h.1, h.2⟩

/-- C7: `getStageId` with `typ = code` matches by exact, case-sensitive
equality on the code field, returning the first match and `None` when no
code is exactly equal; a stage differing only in letter case does not
match. -/
theorem claim_C7_code_lookup_exact :
    (∀ (stages : List StageR) (sname : List Char),
        getStageId stages sname StageTyp.code =
          (stages.find? (fun s => decide (s.code = sname))).map (fun s => s.stageId))
    ∧ (∀ (stages : List StageR) (sname : List Char),
        (∀ s ∈ stages, s.code ≠ sname) → getStageId stages sname StageTyp.code = none)
    ∧ getStageId [⟨5, "SS1".data, "Myhinpaa".data, 12⟩] ("ss1".data) StageTyp.code = none := by
  refine ⟨?_, ?_, ?_⟩
  · intro stages sname
    simp [getStageId, head?_filter_map]
  · intro stages sname h
    simp [getStageId, head?_filter_map, List.find?_eq_none]
    intro s hs
    exact h s hs
  · decide

/-- Witness for C7 at a concrete input: a singleton stage list whose code
differs from the query yields `None`. -/
theorem claim_C7_code_lookup_exact_witness :
    getStageId [⟨5, "SS1".data, "Myhinpaa".data, 12⟩] ("SS2".data) StageTyp.code = none :=
  claim_C7_code_lookup_exact.2.1 [⟨5, "SS1".data, "Myhinpaa".data, 12⟩] ("SS2".data) (by decide)

theorem bindE_ok {α β : Type} (a : α) (f : α → Except PyErr β) :
    (Bind.bind (Except.ok a) f) = f a := rfl

theorem bindE_error {α β : Type} (err : PyErr) (f : α → Except PyErr β) :
    (Bind.bind (Except.error err : Except PyErr α) f) = Except.error err := rfl

theorem foldl_append_eq {α : Type} (L : List (List α)) (acc : List α) :
    L.foldl (fun final res => final ++ res) acc = acc ++ L.flatten := by
  induction L generalizing acc with
  | nil => simp
  | cons x t ih => simp [List.foldl_cons, ih, List.append_assoc]

theorem mapFetch_ok {α : Type} (fetch : Nat → Except PyErr (List α)) (L : List Nat)
    (g : Nat → List α) (h : ∀ s ∈ L, fetch s = Except.ok (g s)) :
    mapFetch fetch L = Except.ok (L.map g) := by
  induction L with
  | nil => rfl
  | cons s rest ih =>
      have hs := h s (by simp)
      have hr := ih (fun x hx => h x (by simp [hx]))
      simp [mapFetch, hs, hr, bindE_ok]

theorem mapFetch_not_ok {α : Type} (fetch : Nat → Except PyErr (List α)) (L : List Nat)
    (s : Nat) (hs : s ∈ L) (hf : isOkE (fetch s) = false) :
    isOkE (mapFetch fetch L) = false := by
  induction L with
  | nil => cases hs
  | cons a rest ih =>
      rcases List.mem_cons.mp hs with hsa | hmem
      · subst hsa
        cases hfa : fetch s with
        | ok l => rw [hfa] at hf; simp [isOkE] at hf
        | error err => simp [mapFetch, hfa, isOkE, bindE_ok, bindE_error]
      · cases hfa : fetch a with
        | error err => simp [mapFetch, hfa, isOkE, bindE_ok, bindE_error]
        | ok la =>
            have hrec := ih hmem
            cases hmf : mapFetch fetch rest with
            | error e2 => simp [mapFetch, hfa, hmf, isOkE, bindE_ok, bindE_error]
            | ok lr => rw [hmf] at hrec; simp [isOkE] at hrec

/-- C8: given per-stage fetch results, `getMultipleStageTimes` and
`getMultipleOverall` return exactly the concatenation of the per-stage
lists in input-stage order (each per-stage list's internal order
preserved), `getMultipleOverall` annotating every record with the
`stageId` it was fetched for; and when fetching any one stage fails, the
whole aggregate operation fails. -/
theorem claim_C8_multi_stage_aggregation :
    (∀ (fetchStageTimes : Nat → Nat → Except PyErr (List TimeRec)) (eventId : Nat)
        (stageList : List Nat) (g : Nat → List TimeRec),
        (∀ s ∈ stageList, fetchStageTimes eventId s = Except.ok (g s)) →
          getMultipleStageTimes fetchStageTimes eventId stageList =
            Except.ok ((stageList.map g).flatten))
    ∧ (∀ (fetchOverall : Nat → Nat → Except PyErr (List OverallRec)) (eventId : Nat)
        (stageList : List Nat) (g : Nat → List OverallRec),
        (∀ s ∈ stageList, fetchOverall eventId s = Except.ok (g s)) →
          getMultipleOverall fetchOverall eventId stageList =
            Except.ok ((stageList.map (fun s =>
              (g s).map (fun pos => { pos with stageId := s }))).flatten))
    ∧ (∀ (fetchStageTimes : Nat → Nat → Except PyErr (List TimeRec)) (eventId : Nat)
        (stageList : List Nat) (s : Nat),
        s ∈ stageList → isOkE (fetchStageTimes eventId s) = false →
          isOkE (getMultipleStageTimes fetchStageTimes eventId stageList) = false)
    ∧ (∀ (fetchOverall : Nat → Nat → Except PyErr (List OverallRec)) (eventId : Nat)
        (stageList : List Nat) (s : Nat),
        s ∈ stageList → isOkE (fetchOverall eventId s) = false →
          isOkE (getMultipleOverall fetchOverall eventId stageList) = false) := by
  refine ⟨?_, ?_, ?_, ?_⟩
  · intro fetchStageTimes eventId stageList g h
    have hm := mapFetch_ok (fun s => fetchStageTimes eventId s) stageList g h
    simp [getMultipleStageTimes, hm, foldl_append_eq, bindE_ok]
  · intro fetchOverall eventId stageList g h
    have hm := mapFetch_ok (fun s => getOverallResult fetchOverall eventId s) stageList
      (fun s => (g s).map (fun pos => { pos with stageId := s }))
      (by
        intro s hs
        simp [getOverallResult, h s hs, bindE_ok])
    simp [getMultipleOverall, hm, foldl_append_eq, bindE_ok]
  · intro fetchStageTimes eventId stageList s hs hf
    have hm := mapFetch_not_ok (fun s => fetchStageTimes eventId s) stageList s hs hf
    cases hmf : mapFetch (fun s => fetchStageTimes eventId s) stageList with
    | ok l => rw [hmf] at hm; simp [isOkE] at hm
    | error err => simp [getMultipleStageTimes, hmf, isOkE, bindE_error]
  · intro fetchOverall eventId stageList s hs hf
    have hfo : isOkE (getOverallResult fetchOverall eventId s) = false := by
      cases hx : fetchOverall eventId s with
      | ok l => rw [hx] at hf; simp [isOkE] at hf
      | error err => simp [getOverallResult, hx, isOkE, bindE_error]
    have hm := mapFetch_not_ok (fun s => getOverallResult fetchOverall eventId s)
      stageList s hs hfo
    cases hmf : mapFetch (fun s => getOverallResult fetchOverall eventId s) stageList with
    | ok l => rw [hmf] at hm; simp [isOkE] at hm
    | error err => simp [getMultipleOverall, hmf, isOkE, bindE_error]

/-- Witness for C8 at concrete inputs: two successful per-stage fetches
concatenate (and annotate) in input order, and a failing fetch makes both
aggregates fail. -/
theorem claim_C8_multi_stage_aggregation_witness :
    getMultipleStageTimes (fun _ s => Except.ok [⟨s, s, none, none⟩]) 5 [3, 4] =
      Except.ok [⟨3, 3, none, none⟩, ⟨4, 4, none, none⟩]
    ∧ getMultipleOverall (fun _ _ => Except.ok [⟨20, 0⟩]) 5 [3, 4] =
      Except.ok [⟨20, 3⟩, ⟨20, 4⟩]
    ∧ isOkE (getMultipleStageTimes (fun _ _ => Except.error PyErr.keyError) 5 [3, 4]) = false
    ∧ isOkE (getMultipleOverall (fun _ _ => Except.error PyErr.keyError) 5 [3, 4]) = false := by
  refine ⟨?_, ?_, ?_, ?_⟩
  · have h := claim_C8_multi_stage_aggregation.1 (fun _ s => Except.ok [⟨s, s, none, none⟩])
      5 [3, 4] (fun s => [⟨s, s, none, none⟩]) (fun s hs => rfl)
    simpa using h
  · have h := claim_C8_multi_stage_aggregation.2.1 (fun _ _ => Except.ok [⟨20, 0⟩])
      5 [3, 4] (fun _ => [⟨20, 0⟩]) (fun s hs => rfl)
    simpa using h
  · exact claim_C8_multi_stage_aggregation.2.2.1 (fun _ _ => Except.error PyErr.keyError)
      5 [3, 4] 3 (by simp) rfl
  · exact claim_C8_multi_stage_aggregation.2.2.2 (fun _ _ => Except.error PyErr.keyError)
      5 [3, 4] 3 (by simp) rfl

/-- C9: `getEntryById` returns the first entry whose `entryId` equals the
given identifier, and `None` — not an error — when no entry matches. -/
theorem claim_C9_entry_lookup :
    (∀ (entries : List CarEntry) (entryId : Nat),
        (∀ e ∈ entries, e.entryId ≠ entryId) → getEntryById entries entryId = none)
    ∧ (∀ (pre post : List CarEntry) (e : CarEntry) (entryId : Nat),
        e.entryId = entryId → (∀ e2 ∈ pre, e2.entryId ≠ entryId) →
          getEntryById (pre ++ e :: post) entryId = some e) := by
  constructor
  · intro entries entryId h
    simp [getEntryById, List.find?_eq_none]
    intro e he
    exact h e he
  · intro pre post e entryId he hpre
    induction pre with
    | nil => simp [getEntryById, List.find?_cons, he]
    | cons a t ih =>
        have ha : ¬ (a.entryId = entryId) := hpre a (by simp)
        have hstep : getEntryById ((a :: t) ++ e :: post) entryId =
            getEntryById (t ++ e :: post) entryId := by
          simp only [getEntryById, List.cons_append]
          exact List.find?_cons_of_neg _ (by simpa using ha)
        rw [hstep]
        exact ih (fun e2 he2 => hpre e2 (by simp [he2]))

/-- Witness for C9 at concrete inputs: a no-match lookup yields `None`; a
lookup whose match is in second position, after a non-matching entry,
returns that second entry. -/
theorem claim_C9_entry_lookup_witness :
    getEntryById [⟨1, 100⟩, ⟨2, 200⟩] 5 = none
    ∧ getEntryById ([⟨1, 100⟩] ++ ⟨2, 200⟩ :: []) 2 = some ⟨2, 200⟩ := by
  constructor
  · exact claim_C9_entry_lookup.1 [⟨1, 100⟩, ⟨2, 200⟩] 5 (by decide)
  · exact claim_C9_entry_lookup.2 [⟨1, 100⟩] [] ⟨2, 200⟩ 2 rfl (by decide)

theorem filterByKey_stageId_nomatch (stages : List StageR) (sid : Nat)
    (h : ∀ s ∈ stages, s.stageId ≠ sid) :
    filterByKey stages "stageId" (SVal.vnat sid) = Except.ok [] := by
  induction stages with
  | nil => rfl
  | cons s rest ih =>
      have hs : s.stageId ≠ sid := h s (by simp)
      have hr := ih (fun x hx => h x (by simp [hx]))
      simp [filterByKey, stageField, hr, hs, bindE_ok]

/-- C10: `getStageInfo` with the default `stageId` key never returns the
absent-value result on a no-match lookup: its guard `len(stage) < 0` is
unsatisfiable, so the subsequent index into the empty filtered list
raises `IndexError` instead. -/
theorem claim_C10_stage_info_no_match_raises (stages : List StageR) (sid : Nat) (clean : Bool)
    (h : ∀ s ∈ stages, s.stageId ≠ sid) :
    getStageInfo stages (SVal.vnat sid) "stageId" clean = Except.error PyErr.indexError
    ∧ getStageInfo stages (SVal.vnat sid) "stageId" clean ≠ Except.ok none := by
  have hf := filterByKey_stageId_nomatch stages sid h
  constructor
  · simp [getStageInfo, hf]
  · simp [getStageInfo, hf]

/-- Witness for C10 at a concrete input: looking up stage identifier 2 in
a singleton list holding stage 1 raises `IndexError`. -/
theorem claim_C10_stage_info_no_match_raises_witness :
    getStageInfo [⟨1, "SS1".data, "Ruuhimaki".data, 11⟩] (SVal.vnat 2) "stageId" true =
      Except.error PyErr.indexError :=
  (claim_C10_stage_info_no_match_raises [⟨1, "SS1".data, "Ruuhimaki".data, 11⟩] 2 true
    (by decide)).1

end WRC
